import Mathlib

/-!
Verification of the worktree-cli core against its specification.

Shallow embedding of the repository's core modules:
* `AtomicWorktreeOperation` (src/utils/atomic.ts): tracker of compensating
  rollback actions with `execute`, `commit`, `rollback`.
* `resolveWorktreeName` / `resolveWorktreePath` / `validateBranchName`
  (src/utils/paths.ts).
* `isMainRepoBare` (src/utils/git.ts).
* Control-flow models of `newWorktreeHandler` (src/commands/new.ts) and
  `removeWorktreeHandler` (src/commands/remove.ts), producing observable
  event traces (git subcommands issued, stash operations, exit paths) under
  the single-threaded cooperative scheduling model of the tool: interrupts
  act only at awaited boundaries, and `process.exit` terminates immediately
  without running pending `finally` blocks.

The file is organized as definitions first, then lemmas and theorems.
-/

namespace WorktreeCli

/-! ## Atomic operation tracker (src/utils/atomic.ts) -/

/-- A registered compensating action.  The source type is
`() => Promise<void>`; observably an action has an identity (which git/fs
cleanup it performs) and may throw when run.  We model it by a label and a
failure flag. -/
structure RollbackAction where
  label : Nat
  fails : Bool
deriving DecidableEq, Repr

/-- State of an `AtomicWorktreeOperation`: the mutable `rollbackActions`
array and the `committed` flag (`worktreePath` plays no role in the claims
about rollback ordering). -/
structure AtomicWorktreeOperation where
  rollbackActions : List RollbackAction
  committed : Bool
deriving DecidableEq, Repr

namespace AtomicWorktreeOperation

/-- `new AtomicWorktreeOperation()`: empty action list, not committed. -/
def init : AtomicWorktreeOperation := ⟨[], false⟩

/-- `execute(action, rollback)`: after `await action()` succeeds, the
compensating action is prepended (`this.rollbackActions.unshift(rollback)`).
A throwing `action` registers nothing and propagates; this definition models
the successful registration step. -/
def execute (op : AtomicWorktreeOperation) (rb : RollbackAction) :
    AtomicWorktreeOperation :=
  { op with rollbackActions := rb :: op.rollbackActions }

/-- `commit()`: sets `committed = true` and clears `rollbackActions`. -/
def commit (op : AtomicWorktreeOperation) : AtomicWorktreeOperation :=
  { op with committed := true, rollbackActions := [] }

/-- The `for (const action of this.rollbackActions)` loop of `rollback()`:
each action is attempted inside `try { await action() } catch { log }`, so
every action is attempted in array order and failures are logged and
skipped.  Returns (labels attempted in order, labels whose action threw and
was logged). -/
def runLoop : List RollbackAction → List Nat × List Nat
  | [] => ([], [])
  | a :: rest =>
    let r := runLoop rest
    (a.label :: r.1, if a.fails then a.label :: r.2 else r.2)

/-- `rollback()`: no-op when `committed` or when no actions are registered;
otherwise runs the loop over `rollbackActions` and clears the list.
Returns ((attempted labels, logged failure labels), final state). -/
def rollback (op : AtomicWorktreeOperation) :
    (List Nat × List Nat) × AtomicWorktreeOperation :=
  if op.committed then (([], []), op)
  else if op.rollbackActions = [] then (([], []), op)
  else (runLoop op.rollbackActions, { op with rollbackActions := [] })

/-- Register a whole sequence of successful steps in order. -/
def registerAll (op : AtomicWorktreeOperation) (rbs : List RollbackAction) :
    AtomicWorktreeOperation :=
  rbs.foldl execute op

end AtomicWorktreeOperation

open AtomicWorktreeOperation

/-! ## Branch/path resolver (src/utils/paths.ts) -/

/-- The current working directory, represented by the two projections the
resolver computes from it: `dirname(cwd)` and `basename(cwd)`. -/
structure Cwd where
  parent : String
  dirName : String
deriving DecidableEq, Repr

/-- Model of node `path.join` for the nonempty segments the resolver
passes it. -/
def pathJoin (a b : String) : String := a ++ "/" ++ b

/-- Model of node `path.resolve(p)`: an absolute input is returned as is, a
relative one is made absolute against the current working directory. -/
def resolvePath (cwd : Cwd) (p : String) : String :=
  if p.startsWith "/" then p else pathJoin (pathJoin cwd.parent cwd.dirName) p

/-- JavaScript truthiness of an optional string (`if (customPath)`,
`if (defaultWorktreePath)`): `undefined` and the empty string are falsy. -/
def truthy : Option String → Bool
  | none => false
  | some s => s != ""

/-- Configuration consulted by the resolver: `getDefaultWorktreePath()`,
`getWorktreeSubfolder()` and the repository name that `getRepoName(cwd)`
returns. -/
structure PathConfig where
  defaultWorktreePath : Option String
  worktreeSubfolder : Bool
  repoName : String
deriving DecidableEq, Repr

/-- The `ResolveWorktreePathOptions` record of the source. -/
structure ResolveWorktreePathOptions where
  customPath : Option String
  cwd : Cwd
  useRepoNamespace : Bool
deriving DecidableEq, Repr

/-- `resolveWorktreeName`: replace every `/` in the branch name with `-`. -/
def resolveWorktreeName (branchName : String) : String :=
  branchName.map (fun c => if c = '/' then '-' else c)

/-- `resolveWorktreePath` (src/utils/paths.ts, four-case version): custom
path, global `defaultWorktreePath` (with or without repo namespace),
subfolder mode, sibling-directory fallback — in that order. -/
def resolveWorktreePath (cfg : PathConfig) (branchName : String)
    (opts : ResolveWorktreePathOptions) : String :=
  if truthy opts.customPath then
    resolvePath opts.cwd (opts.customPath.getD "")
  else
    let worktreeName := resolveWorktreeName branchName
    if truthy cfg.defaultWorktreePath then
      let root := cfg.defaultWorktreePath.getD ""
      if opts.useRepoNamespace then
        pathJoin (pathJoin root cfg.repoName) worktreeName
      else
        pathJoin root worktreeName
    else if cfg.worktreeSubfolder then
      pathJoin (pathJoin opts.cwd.parent (opts.cwd.dirName ++ "-worktrees"))
        worktreeName
    else
      pathJoin opts.cwd.parent (opts.cwd.dirName ++ "-" ++ worktreeName)

/-- The resolution contract as the specification words it: a strict
four-way priority chain in which exactly one branch executes — (1) explicit
custom path resolved to an absolute path with no further processing,
(2) configured global root (`<root>/<repoName>/<name>` when namespacing,
else `<root>/<name>`), (3) subfolder mode
(`<parentOfCwd>/<currentDirName>-worktrees/<name>`), (4) sibling fallback
(`<parentOfCwd>/<currentDirName>-<name>`).  The nested total `match` makes
the branches mutually exclusive and exhaustive. -/
def resolveWorktreePathSpec (cfg : PathConfig) (branchName : String)
    (opts : ResolveWorktreePathOptions) : String :=
  match opts.customPath with
  | some p => resolvePath opts.cwd p
  | none =>
    let name := resolveWorktreeName branchName
    match cfg.defaultWorktreePath with
    | some root =>
      if opts.useRepoNamespace then pathJoin (pathJoin root cfg.repoName) name
      else pathJoin root name
    | none =>
      if cfg.worktreeSubfolder then
        pathJoin (pathJoin opts.cwd.parent (opts.cwd.dirName ++ "-worktrees"))
          name
      else pathJoin opts.cwd.parent (opts.cwd.dirName ++ "-" ++ name)

/-! ## Branch name validation (src/utils/paths.ts, `validateBranchName`) -/

/-- Whitespace as matched by the `\s` class of the source's regex
(restricted to the characters relevant here: space, tab, newline, carriage
return, vertical tab, form feed, no-break space). -/
def isSpaceChar (c : Char) : Bool :=
  c = ' ' || c = '\t' || c = '\n' || c = '\r' ||
    c = Char.ofNat 11 || c = Char.ofNat 12 || c = Char.ofNat 160

/-- JavaScript `String.prototype.trim`: strip leading and trailing
whitespace. -/
def trimList (l : List Char) : List Char :=
  ((l.dropWhile isSpaceChar).reverse.dropWhile isSpaceChar).reverse

/-- The non-whitespace characters of the char class in
`/[\s~^:?*\[\]\\]/`. -/
def branchBadChars : List Char := ['~', '^', ':', '?', '*', '[', ']', '\\']

/-- One-character test of the regex `/[\s~^:?*\[\]\\]/`. -/
def isInvalidBranchChar (c : Char) : Bool :=
  isSpaceChar c || c = '~' || c = '^' || c = ':' || c = '?' || c = '*' ||
    c = '[' || c = ']' || c = '\\'

/-- The `{isValid, error?}` result object of `validateBranchName`. -/
structure ValidationResult where
  isValid : Bool
  error : Option String
deriving DecidableEq, Repr

/-- `validateBranchName` (src/utils/paths.ts): reject empty/all-whitespace
names, names matching the invalid-character class, names containing `..`,
names ending in `.lock`; accept everything else. -/
def validateBranchName (name : List Char) : ValidationResult :=
  if name = [] ∨ trimList name = [] then
    ⟨false, some "Branch name cannot be empty"⟩
  else if name.any isInvalidBranchChar then
    ⟨false, some "Branch name contains invalid characters"⟩
  else if ['.', '.'] <:+: name then
    ⟨false, some "Branch name cannot contain \x22..\x22"⟩
  else if ['.', 'l', 'o', 'c', 'k'] <:+ name then
    ⟨false, some "Branch name cannot end with \x22.lock\x22"⟩
  else ⟨true, none⟩

/-! ## Bare-repository detection (src/utils/git.ts, `isMainRepoBare`) -/

/-- A failed `execa` subprocess call: exit code, captured stdout and
stderr. -/
structure ExecFailure where
  exitCode : Int
  stdout : String
  stderr : String
deriving DecidableEq, Repr

/-- Outcome of an `execa` git call: success with stdout, or failure. -/
abbrev ExecResult := Except ExecFailure String

/-- Environment of one `isMainRepoBare` call: the outcome of
`git rev-parse --git-dir`, and — as a function of the repository directory
the code derives from it — the outcome of
`git config --get --bool core.bare` run in that directory. -/
structure BareEnv where
  revParseGitDir : ExecResult
  configCoreBare : String → ExecResult

/-- `gitDir.endsWith('/.git') ? gitDir.slice(0, -5) : gitDir`. -/
def mainRepoDirOf (gitDir : String) : String :=
  if gitDir.endsWith "/.git" then gitDir.dropRight 5 else gitDir

/-- `isMainRepoBare` (src/utils/git.ts): queries the git dir and the
`core.bare` config; returns the boolean the config reports; every failure —
the config key not existing (exit code 1 with empty output) as well as any
other error — is caught and yields `false`.  The function is total: it
never propagates an error. -/
def isMainRepoBare (env : BareEnv) : Bool :=
  match env.revParseGitDir with
  | .error _ => false
  | .ok gitDir =>
    match env.configCoreBare (mainRepoDirOf gitDir) with
    | .error _ => false
    | .ok bareConfig => bareConfig.trim == "true"

/-! ## Exit paths shared by the command handler models -/

/-- How one handler invocation ends: a normal return, or an immediate
`process.exit(code)` (which in node skips any pending `finally` block). -/
inductive ExitKind
  | finished
  | exited (code : Nat)
deriving DecidableEq, Repr

/-! ## Remove command (src/commands/remove.ts, `removeWorktreeHandler`) -/

/-- A worktree record (`WorktreeInfo`) as consumed by the remove handler. -/
structure WorktreeInfo where
  path : String
  branch : Option String
  isMain : Bool
  locked : Bool
  lockReason : Option String
deriving DecidableEq, Repr

/-- Outcome of a `git worktree remove` subprocess. -/
inductive RemoveGitResult
  | ok
  | modifiedFiles
  | otherError
deriving DecidableEq, Repr

/-- Observable mutating actions of one remove invocation. -/
inductive RemoveEv
  | gitWorktreeRemove (force : Bool) (path : String)
  | rmDir (path : String)
deriving DecidableEq, Repr

/-- Environment of one remove invocation, from the point where the target
worktree has been resolved (interactive selection and by-path/by-branch
lookup are external collaborators whose result is the resolved target). -/
structure RemoveEnv where
  target : Option WorktreeInfo
  viaSelection : Bool
  force : Bool
  stdinIsTTY : Bool
  confirmRemoval : Bool
  gitRemove : RemoveGitResult
  confirmForceRemove : Bool
  gitForceRemove : RemoveGitResult
  dirStillExists : Bool
deriving DecidableEq, Repr

/-- `removeWorktreeHandler` (src/commands/remove.ts): refuse the main
worktree, refuse a locked worktree unless forced, confirm unless forced or
non-interactive, remove via git (escalating to `--force` after a second
confirmation when git reports modified/untracked files), then delete the
residual directory. -/
def removeWorktreeHandler (env : RemoveEnv) : List RemoveEv × ExitKind :=
  match env.target with
  | none => ([], if env.viaSelection then .exited 0 else .exited 1)
  | some tw =>
    if tw.isMain then ([], .exited 1)
    else if tw.locked ∧ ¬env.force then ([], .exited 1)
    else if ¬env.force ∧ env.stdinIsTTY ∧ ¬env.confirmRemoval then
      ([], .exited 0)
    else
      let first := RemoveEv.gitWorktreeRemove env.force tw.path
      let cleanup : List RemoveEv :=
        if env.dirStillExists then [.rmDir tw.path] else []
      match env.gitRemove with
      | .ok => ([first] ++ cleanup, .finished)
      | .modifiedFiles =>
        if env.force then ([first], .exited 1)
        else if env.confirmForceRemove then
          match env.gitForceRemove with
          | .ok =>
            ([first, .gitWorktreeRemove true tw.path] ++ cleanup, .finished)
          | _ => ([first, .gitWorktreeRemove true tw.path], .exited 1)
        else ([first], .exited 0)
      | .otherError => ([first], .exited 1)

/-! ## Create command (src/commands/new.ts, `newWorktreeHandler`)

The model produces the trace of observable events of one invocation under
cooperative scheduling: an interrupt signal acts only at an awaited
boundary; when it acts, the registered shutdown handler (registered only
after a successful stash) restores the stash and the process exits 130.
`process.exit` inside a `catch` block terminates immediately, skipping the
`finally` block of the handler. -/

/-- The three resolutions of the dirty-state prompt. -/
inductive DirtyChoice
  | abort
  | stash
  | continueDirty
deriving DecidableEq, Repr

/-- Observable events of one create invocation. -/
inductive NewEv
  | stashPush
  | gitWorktreeAdd (createBranch : Bool)
  | rollbackWorktree
  | installRun
  | reuseExisting
  | notAWorktreeWarn
  | editorOpen
  | editorWarn
  | restoreStash
deriving DecidableEq, Repr

/-- Awaited boundaries at which an interrupt signal can act. -/
inductive IPoint
  | beforeCreate
  | beforeInstall
  | beforeEditor
deriving DecidableEq, Repr

/-- Environment of one create invocation: outcomes of the external
queries, prompts and subprocesses the handler awaits. -/
structure NewEnv where
  revParseOk : Bool
  branchName : List Char
  isBare : Bool
  isClean : Bool
  dirtyChoice : DirtyChoice
  stashResult : Bool
  dirExists : Bool
  hasDotGit : Bool
  branchExists : Bool
  createFails : Bool
  installPM : Bool
  installFails : Bool
  editorSkip : Bool
  editorFails : Bool
  interrupt : Option IPoint
deriving DecidableEq, Repr

/-- Step 7 of the handler: open the editor (failures are caught, a warning
is logged and execution continues), then the success message and the
`finally` block — unregister the shutdown handler and reapply the stash if
one was taken. -/
def editorPhase (env : NewEnv) (evs : List NewEv) (stashTaken : Bool) :
    List NewEv × ExitKind :=
  if env.interrupt == some .beforeEditor then
    (evs ++ (if stashTaken then [.restoreStash] else []), .exited 130)
  else
    let evs3 := evs ++
      (if env.editorSkip then []
       else if env.editorFails then [.editorOpen, .editorWarn]
       else [.editorOpen])
    (evs3 ++ (if stashTaken then [.restoreStash] else []), .finished)

/-- Steps 4–6 of the handler: resolve the path, check directory existence
and branch existence, then either reuse the existing worktree or run the
atomic creation (worktree add, optional install, commit).  A failure of
`createWorktree` happens before its rollback action is registered, so
`atomic.rollback()` in the catch runs zero actions; the outer catch then
calls `process.exit(1)`, skipping the `finally` restore.  A failure of
`runInstall` triggers `atomic.rollback()`, which removes the created
worktree, and the outer catch again exits 1 without restoring the stash. -/
def createPhase (env : NewEnv) (evs0 : List NewEv) (stashTaken : Bool) :
    List NewEv × ExitKind :=
  if env.interrupt == some .beforeCreate then
    (evs0 ++ (if stashTaken then [.restoreStash] else []), .exited 130)
  else if env.dirExists then
    editorPhase env
      (evs0 ++ [if env.hasDotGit then .reuseExisting else .notAWorktreeWarn])
      stashTaken
  else
    let evs1 := evs0 ++ [.gitWorktreeAdd (!env.branchExists)]
    if env.createFails then (evs1, .exited 1)
    else if env.interrupt == some .beforeInstall then
      (evs1 ++ (if stashTaken then [.restoreStash] else []), .exited 130)
    else if env.installPM && env.installFails then
      (evs1 ++ [.installRun, .rollbackWorktree], .exited 1)
    else
      editorPhase env (evs1 ++ (if env.installPM then [.installRun] else []))
        stashTaken

/-- Step 3 of the handler: dirty-state resolution.  `none` means the user
chose `abort` (the command exits 0 before any mutation).  Otherwise the
result is the events so far and whether a stash was taken (`stashChanges`
is invoked on `stash`, and may return null when there was nothing to
stash; the shutdown handler is registered only for a non-null result). -/
def dirtyPhase (env : NewEnv) : Option (List NewEv × Bool) :=
  if ¬env.isBare ∧ ¬env.isClean then
    match env.dirtyChoice with
    | .abort => none
    | .stash => some ([NewEv.stashPush], env.stashResult)
    | .continueDirty => some ([], false)
  else some ([], false)

/-- `newWorktreeHandler` (src/commands/new.ts): validate the repository
and the branch name, resolve the dirty state, then create or reuse the
worktree and open the editor. -/
def newWorktreeHandler (env : NewEnv) : List NewEv × ExitKind :=
  if ¬env.revParseOk then ([], .exited 1)
  else if env.branchName = [] ∨ trimList env.branchName = [] then
    ([], .exited 1)
  else if (validateBranchName env.branchName).isValid = false then
    ([], .exited 1)
  else
    match dirtyPhase env with
    | none => ([], .exited 0)
    | some (evs0, stashTaken) => createPhase env evs0 stashTaken

/-- Number of times the taken stash is reapplied in a trace. -/
def restoreCount (evs : List NewEv) : Nat := evs.count NewEv.restoreStash

/-- The concrete failing invocation for the stash guarantee: dirty tree,
user chooses `stash`, stash succeeds, then `git worktree add` fails and the
handler exits through its catch block. -/
def stashLostEnv : NewEnv :=
  { revParseOk := true
    branchName := ['f', 'e', 'a', 't']
    isBare := false
    isClean := false
    dirtyChoice := .stash
    stashResult := true
    dirExists := false
    hasDotGit := false
    branchExists := true
    createFails := true
    installPM := false
    installFails := false
    editorSkip := true
    editorFails := false
    interrupt := none }

/-- The concrete invocation refuting the no-rollback-on-install-failure
claim: creation succeeds, an install command is configured and fails. -/
def installRollbackEnv : NewEnv :=
  { revParseOk := true
    branchName := ['f', 'e', 'a', 't']
    isBare := false
    isClean := true
    dirtyChoice := .continueDirty
    stashResult := false
    dirExists := false
    hasDotGit := false
    branchExists := true
    createFails := false
    installPM := true
    installFails := true
    editorSkip := true
    editorFails := false
    interrupt := none }

/-- A concrete invocation whose resolved target path already holds a
worktree (`.git` marker present), on a clean tree. -/
def reuseEnv : NewEnv :=
  { revParseOk := true
    branchName := ['f', 'e', 'a', 't']
    isBare := false
    isClean := true
    dirtyChoice := .continueDirty
    stashResult := false
    dirExists := true
    hasDotGit := true
    branchExists := true
    createFails := false
    installPM := false
    installFails := false
    editorSkip := true
    editorFails := false
    interrupt := none }

/-! ## Lemmas about the atomic operation tracker -/

lemma registerAll_actions (op : AtomicWorktreeOperation)
    (rbs : List RollbackAction) :
    (op.registerAll rbs).rollbackActions =
      rbs.reverse ++ op.rollbackActions ∧
    (op.registerAll rbs).committed = op.committed := by
  induction rbs generalizing op with
  | nil => simp [registerAll]
  | cons a rest ih =>
    have h := ih (op.execute a)
    simpa [registerAll, execute, List.foldl_cons] using h

lemma runLoop_attempted (l : List RollbackAction) :
    (runLoop l).1 = l.map RollbackAction.label := by
  induction l with
  | nil => rfl
  | cons a rest ih => simp [runLoop, ih]

lemma runLoop_logged (l : List RollbackAction) :
    (runLoop l).2 = (l.filter RollbackAction.fails).map RollbackAction.label := by
  induction l with
  | nil => rfl
  | cons a rest ih =>
    by_cases h : a.fails <;> simp [runLoop, ih, List.filter_cons, h]

/-- C1: registering N compensating actions on a fresh operation and then
invoking `rollback()` before `commit()` attempts the actions in exact
reverse order of registration (LIFO): register 1..N, observe N,...,1. -/
theorem rollback_is_lifo (rbs : List RollbackAction) :
    ((AtomicWorktreeOperation.init.registerAll rbs).rollback).1.1 =
      (rbs.map RollbackAction.label).reverse := by
  have hact : (AtomicWorktreeOperation.init.registerAll rbs).rollbackActions
      = rbs.reverse := by
    simpa [AtomicWorktreeOperation.init] using
      (registerAll_actions AtomicWorktreeOperation.init rbs).1
  have hcom : (AtomicWorktreeOperation.init.registerAll rbs).committed
      = false := by
    simpa [AtomicWorktreeOperation.init] using
      (registerAll_actions AtomicWorktreeOperation.init rbs).2
  by_cases hnil : rbs = []
  · subst hnil
    simp [AtomicWorktreeOperation.rollback, hcom, hact]
  · simp [AtomicWorktreeOperation.rollback, hcom, hact, hnil,
      runLoop_attempted, List.map_reverse]

/-- C3: after `commit()` has been called, any subsequent `rollback()` —
even after further registrations — performs zero registered actions. -/
theorem rollback_after_commit_noop (op : AtomicWorktreeOperation)
    (rbs : List RollbackAction) :
    ((op.commit.registerAll rbs).rollback).1.1 = [] := by
  have hcom : (op.commit.registerAll rbs).committed = true := by
    simpa [AtomicWorktreeOperation.commit] using
      (registerAll_actions op.commit rbs).2
  simp [AtomicWorktreeOperation.rollback, hcom]

/-- C4: on an uncommitted operation, `rollback()` attempts every registered
action in order regardless of which actions throw; throwing actions are
logged and do not stop the unwinding of the remaining actions. -/
theorem rollback_attempts_all (rbs : List RollbackAction) :
    ((AtomicWorktreeOperation.mk rbs false).rollback).1.1 =
        rbs.map RollbackAction.label ∧
      ((AtomicWorktreeOperation.mk rbs false).rollback).1.2 =
        (rbs.filter RollbackAction.fails).map RollbackAction.label := by
  by_cases hnil : rbs = []
  · subst hnil; simp [AtomicWorktreeOperation.rollback]
  · simp [AtomicWorktreeOperation.rollback, hnil, runLoop_attempted,
      runLoop_logged]

/-! ## Theorems about the path resolver -/

/-- C6: `resolveWorktreePath` implements the specification's four-way
priority chain — custom path first, then global root (namespaced or not),
then subfolder mode, then the sibling fallback — with exactly one branch
executing per call.  The hypotheses exclude the degenerate empty-string
configuration values, which JavaScript truthiness treats as absent. -/
theorem resolveWorktreePath_priority (cfg : PathConfig) (branchName : String)
    (opts : ResolveWorktreePathOptions)
    (hc : opts.customPath ≠ some "") (hd : cfg.defaultWorktreePath ≠ some "") :
    resolveWorktreePath cfg branchName opts =
      resolveWorktreePathSpec cfg branchName opts := by
  cases hcp : opts.customPath with
  | some p =>
    have hp : p ≠ "" := fun h => hc (by rw [hcp, h])
    simp [resolveWorktreePath, resolveWorktreePathSpec, truthy, hcp, hp]
  | none =>
    cases hdp : cfg.defaultWorktreePath with
    | some root =>
      have hr : root ≠ "" := fun h => hd (by rw [hdp, h])
      simp [resolveWorktreePath, resolveWorktreePathSpec, truthy, hcp, hdp, hr]
    | none =>
      simp [resolveWorktreePath, resolveWorktreePathSpec, truthy, hcp, hdp]

/-- Witness for C6 at a concrete input (global root configured, namespacing
enabled). -/
theorem resolveWorktreePath_priority_witness :
    resolveWorktreePath ⟨some "/wt", false, "repo"⟩ "feature/auth"
        ⟨none, ⟨"/home", "app"⟩, true⟩ =
      resolveWorktreePathSpec ⟨some "/wt", false, "repo"⟩ "feature/auth"
        ⟨none, ⟨"/home", "app"⟩, true⟩ :=
  resolveWorktreePath_priority _ _ _ (by decide) (by decide)

/-! ## Lemmas and theorem for branch name validation -/

lemma dropWhile_eq_nil_char (p : Char → Bool) (l : List Char) :
    l.dropWhile p = [] ↔ ∀ c ∈ l, p c = true := by
  induction l with
  | nil => simp
  | cons a rest ih =>
    by_cases h : p a = true <;> simp [List.dropWhile_cons, h, ih]

lemma trimList_eq_nil_iff (l : List Char) :
    trimList l = [] ↔ ∀ c ∈ l, isSpaceChar c = true := by
  unfold trimList
  rw [List.reverse_eq_nil_iff, dropWhile_eq_nil_char]
  simp only [List.mem_reverse]
  constructor
  · intro h c hc
    rcases List.mem_append.mp
        ((List.takeWhile_append_dropWhile (p := isSpaceChar) (l := l)) ▸ hc)
      with htk | hdp
    · exact List.mem_takeWhile_imp htk
    · exact h c hdp
  · intro h c hc
    exact h c ((List.dropWhile_sublist (l := l) (p := isSpaceChar)).subset hc)

lemma isInvalidBranchChar_iff (c : Char) :
    isInvalidBranchChar c = true ↔
      (isSpaceChar c = true ∨ c ∈ branchBadChars) := by
  simp only [isInvalidBranchChar, branchBadChars, Bool.or_eq_true,
    decide_eq_true_eq, List.mem_cons, List.not_mem_nil, or_false]
  tauto

/-- C7: `validateBranchName` rejects exactly the names that are empty or
all-whitespace, contain whitespace or one of `~ ^ : ? * [ ] \`, contain the
substring `..`, or end in `.lock`; every other name — in particular `main`,
`feature/auth`, `release/v1.0.0` — is accepted. -/
theorem validateBranchName_spec :
    (∀ name : List Char,
        ((validateBranchName name).isValid = true ↔
          ¬((∀ c ∈ name, isSpaceChar c = true) ∨
            (∃ c ∈ name, isSpaceChar c = true ∨ c ∈ branchBadChars) ∨
            ['.', '.'] <:+: name ∨
            ['.', 'l', 'o', 'c', 'k'] <:+ name))) ∧
      (validateBranchName "main".toList).isValid = true ∧
      (validateBranchName "feature/auth".toList).isValid = true ∧
      (validateBranchName "release/v1.0.0".toList).isValid = true := by
  refine ⟨fun name => ?_, by decide, by decide, by decide⟩
  by_cases h1 : name = [] ∨ trimList name = []
  · have hA : ∀ c ∈ name, isSpaceChar c = true := by
      rcases h1 with h | h
      · intro c hc; rw [h] at hc; cases hc
      · exact (trimList_eq_nil_iff name).mp h
    refine iff_of_false ?_ (fun hn => hn (Or.inl hA))
    simp [validateBranchName, h1]
  · by_cases h2 : name.any isInvalidBranchChar = true
    · have hB : ∃ c ∈ name, isSpaceChar c = true ∨ c ∈ branchBadChars := by
        simpa [List.any_eq_true, isInvalidBranchChar_iff] using h2
      refine iff_of_false ?_ (fun hn => hn (Or.inr (Or.inl hB)))
      simp [validateBranchName, h1, h2]
    · by_cases h3 : ['.', '.'] <:+: name
      · refine iff_of_false ?_ (fun hn => hn (Or.inr (Or.inr (Or.inl h3))))
        simp [validateBranchName, h1, h2, h3]
      · by_cases h4 : ['.', 'l', 'o', 'c', 'k'] <:+ name
        · refine iff_of_false ?_ (fun hn => hn (Or.inr (Or.inr (Or.inr h4))))
          simp [validateBranchName, h1, h2, h3, h4]
        · refine iff_of_true ?_ ?_
          · simp [validateBranchName, h1, h2, h3, h4]
          · rintro (hA | hB | hC | hD)
            · exact (not_or.mp h1).2 ((trimList_eq_nil_iff name).mpr hA)
            · exact h2 (by
                simpa [List.any_eq_true, isInvalidBranchChar_iff] using hB)
            · exact h3 hC
            · exact h4 hD

/-! ## Theorem about bare-repository detection -/

/-- C10: `isMainRepoBare` fails open — it is a total boolean function that
returns `true` exactly when both git queries succeed and the reported
`core.bare` value is `true`; in every other situation (missing config key,
failing git query of either kind) it returns `false` instead of
propagating an error. -/
theorem isMainRepoBare_fails_open (env : BareEnv) :
    isMainRepoBare env = true ↔
      ∃ gitDir bareConfig,
        env.revParseGitDir = .ok gitDir ∧
        env.configCoreBare (mainRepoDirOf gitDir) = .ok bareConfig ∧
        bareConfig.trim = "true" := by
  constructor
  · intro h
    cases h1 : env.revParseGitDir with
    | error e => simp [isMainRepoBare, h1] at h
    | ok gitDir =>
      cases h2 : env.configCoreBare (mainRepoDirOf gitDir) with
      | error e => simp [isMainRepoBare, h1, h2] at h
      | ok s =>
        refine ⟨gitDir, s, rfl, h2, ?_⟩
        simpa [isMainRepoBare, h1, h2] using h
  · rintro ⟨g, s, hg, hs, ht⟩
    simp [isMainRepoBare, hg, hs, ht]

/-! ## Theorem about the remove command -/

/-- C8: whenever the resolved target of the remove command is the main
worktree, the handler refuses: it exits with code 1 and issues no git
worktree removal (and no directory deletion) at all, regardless of the
`--force` flag and of every other circumstance of the invocation. -/
theorem remove_refuses_main (env : RemoveEnv) (tw : WorktreeInfo)
    (htw : env.target = some tw) (hmain : tw.isMain = true) :
    (removeWorktreeHandler env).1 = [] ∧
      (removeWorktreeHandler env).2 = ExitKind.exited 1 := by
  unfold removeWorktreeHandler
  rw [htw]
  simp [hmain]

/-- Witness for C8: a forced, non-interactive invocation whose resolved
target is the main worktree. -/
theorem remove_refuses_main_witness :
    (removeWorktreeHandler
        ⟨some ⟨"/repo", some "main", true, false, none⟩, false, true, true,
          true, .ok, true, .ok, true⟩).1 = [] ∧
      (removeWorktreeHandler
        ⟨some ⟨"/repo", some "main", true, false, none⟩, false, true, true,
          true, .ok, true, .ok, true⟩).2 = ExitKind.exited 1 :=
  remove_refuses_main _ ⟨"/repo", some "main", true, false, none⟩ rfl rfl

/-! ## Lemmas about the create command model -/

lemma dirtyPhase_cases (env : NewEnv) :
    (dirtyPhase env = none ∧
        ¬env.isBare ∧ ¬env.isClean ∧ env.dirtyChoice = DirtyChoice.abort) ∨
      dirtyPhase env = some ([], false) ∨
      dirtyPhase env = some ([NewEv.stashPush], env.stashResult) := by
  unfold dirtyPhase
  cases hB : env.isBare <;> cases hC : env.isClean <;>
    cases hc : env.dirtyChoice <;> simp [hB, hC, hc]

lemma newHandler_eq_createPhase (env : NewEnv)
    (hrev : env.revParseOk = true)
    (hname : ¬(env.branchName = [] ∨ trimList env.branchName = []))
    (hvalid : (validateBranchName env.branchName).isValid = true)
    (habort : ¬(¬env.isBare ∧ ¬env.isClean ∧
      env.dirtyChoice = DirtyChoice.abort)) :
    ∃ evs0 st, newWorktreeHandler env = createPhase env evs0 st ∧
      (evs0 = [] ∨ evs0 = [NewEv.stashPush]) := by
  rcases dirtyPhase_cases env with ⟨_, hb⟩ | hd | hd
  · exact absurd hb habort
  · exact ⟨[], false, by simp [newWorktreeHandler, hrev, hname, hvalid, hd],
      Or.inl rfl⟩
  · exact ⟨[NewEv.stashPush], env.stashResult,
      by simp [newWorktreeHandler, hrev, hname, hvalid, hd], Or.inr rfl⟩

lemma editorPhase_shape (env : NewEnv) (evs : List NewEv) (st : Bool)
    (hint : env.interrupt = none) :
    ∃ tail, editorPhase env evs st = (evs ++ tail, ExitKind.finished) ∧
      ∀ e ∈ tail, e = NewEv.editorOpen ∨ e = NewEv.editorWarn ∨
        e = NewEv.restoreStash := by
  have hbeq : (env.interrupt == some IPoint.beforeEditor) = false := by
    rw [hint]; rfl
  refine ⟨(if env.editorSkip then []
      else if env.editorFails then [NewEv.editorOpen, NewEv.editorWarn]
      else [NewEv.editorOpen]) ++ (if st then [NewEv.restoreStash] else []),
    ?_, ?_⟩
  · unfold editorPhase
    rw [hbeq]
    simp [List.append_assoc]
  · intro e he
    cases hsk : env.editorSkip <;> cases hef : env.editorFails <;>
        cases hst : st <;> simp [hsk, hef, hst] at he <;> tauto

lemma editorPhase_warns (env : NewEnv) (evs : List NewEv) (st : Bool)
    (hint : env.interrupt = none)
    (hsk : env.editorSkip = false) (hef : env.editorFails = true) :
    NewEv.editorWarn ∈ (editorPhase env evs st).1 := by
  have hbeq : (env.interrupt == some IPoint.beforeEditor) = false := by
    rw [hint]; rfl
  unfold editorPhase
  rw [hbeq]
  simp [hsk, hef]

lemma createPhase_success (env : NewEnv) (evs0 : List NewEv) (st : Bool)
    (hint : env.interrupt = none)
    (hpath : env.dirExists = true ∨
      (env.dirExists = false ∧ env.createFails = false ∧
        (env.installPM = false ∨ env.installFails = false))) :
    ∃ mid, createPhase env evs0 st = editorPhase env (evs0 ++ mid) st ∧
      NewEv.rollbackWorktree ∉ mid ∧
      (∀ b, NewEv.gitWorktreeAdd b ∈ mid → env.dirExists = false) ∧
      (env.dirExists = true → env.hasDotGit = true →
        NewEv.reuseExisting ∈ mid) ∧
      (env.dirExists = false →
        NewEv.gitWorktreeAdd (!env.branchExists) ∈ mid) := by
  have hbeq : (env.interrupt == some IPoint.beforeCreate) = false := by
    rw [hint]; rfl
  rcases hpath with hdir | ⟨hdir, hcf, hio⟩
  · refine ⟨[if env.hasDotGit then NewEv.reuseExisting
        else NewEv.notAWorktreeWarn], ?_, ?_, ?_, ?_, ?_⟩
    · unfold createPhase
      rw [hbeq]
      simp [hdir]
    · cases hdg : env.hasDotGit <;> simp [hdg]
    · intro b hb
      cases hdg : env.hasDotGit <;> simp [hdg] at hb
    · intro _ hdg; simp [hdg]
    · intro h; rw [h] at hdir; cases hdir
  · have hbeq2 : (env.interrupt == some IPoint.beforeInstall) = false := by
      rw [hint]; rfl
    have hii : (env.installPM && env.installFails) = false := by
      rcases hio with h | h <;> simp [h]
    refine ⟨[NewEv.gitWorktreeAdd (!env.branchExists)] ++
        (if env.installPM then [NewEv.installRun] else []), ?_, ?_, ?_, ?_, ?_⟩
    · unfold createPhase
      rw [hbeq]
      simp [hdir, hcf, hbeq2, hii, List.append_assoc]
    · cases hpm : env.installPM <;> simp [hpm]
    · intro b _; exact hdir
    · intro h; rw [h] at hdir; cases hdir
    · intro _; simp

lemma createPhase_install_failure (env : NewEnv) (evs0 : List NewEv)
    (st : Bool) (hint : env.interrupt = none)
    (hdir : env.dirExists = false) (hcf : env.createFails = false)
    (hpm : env.installPM = true) (hif : env.installFails = true) :
    createPhase env evs0 st =
      (evs0 ++ [NewEv.gitWorktreeAdd (!env.branchExists),
        NewEv.installRun, NewEv.rollbackWorktree], ExitKind.exited 1) := by
  have hbeq : (env.interrupt == some IPoint.beforeCreate) = false := by
    rw [hint]; rfl
  have hbeq2 : (env.interrupt == some IPoint.beforeInstall) = false := by
    rw [hint]; rfl
  unfold createPhase
  rw [hbeq]
  simp [hdir, hcf, hbeq2, hpm, hif]

/-! ## Theorems about the create command -/

/-- C2 (evaluation at the failing input): a dirty invocation that chooses
`stash` and then fails during `git worktree add` takes a stash but exits
through the `catch` block's `process.exit(1)`, which skips the `finally`
restore — the stash is reapplied zero times on this thrown-error exit
path, contradicting the exactly-once guarantee. -/
theorem stash_not_restored_on_error_exit :
    NewEv.stashPush ∈ (newWorktreeHandler stashLostEnv).1 ∧
      restoreCount (newWorktreeHandler stashLostEnv).1 = 0 ∧
      (newWorktreeHandler stashLostEnv).2 = ExitKind.exited 1 := by decide

/-- C5 (counterexample): when the package-manager install subprocess fails
during worktree creation, the registered rollback runs and removes the
just-created worktree — the creation is rolled back, contradicting the
claim that install failures leave the worktree in place. -/
theorem install_failure_rolls_back_worktree :
    NewEv.installRun ∈ (newWorktreeHandler installRollbackEnv).1 ∧
      NewEv.rollbackWorktree ∈ (newWorktreeHandler installRollbackEnv).1 ∧
      (newWorktreeHandler installRollbackEnv).2 = ExitKind.exited 1 := by
  decide

/-- C5 (amended): failures of the external editor subprocess are logged as
warnings and do not roll back the worktree creation (the command still
finishes normally); failures of the package-manager install subprocess,
which run inside the atomic operation before `commit()`, do trigger the
rollback that removes the created worktree, and the command exits 1. -/
theorem editor_warns_install_rolls_back (env : NewEnv)
    (hrev : env.revParseOk = true)
    (hname : ¬(env.branchName = [] ∨ trimList env.branchName = []))
    (hvalid : (validateBranchName env.branchName).isValid = true)
    (habort : ¬(¬env.isBare ∧ ¬env.isClean ∧
      env.dirtyChoice = DirtyChoice.abort))
    (hint : env.interrupt = none) :
    (env.editorSkip = false → env.editorFails = true →
      (env.dirExists = true ∨
        (env.dirExists = false ∧ env.createFails = false ∧
          (env.installPM = false ∨ env.installFails = false))) →
      NewEv.editorWarn ∈ (newWorktreeHandler env).1 ∧
        NewEv.rollbackWorktree ∉ (newWorktreeHandler env).1 ∧
        (newWorktreeHandler env).2 = ExitKind.finished) ∧
    (env.dirExists = false → env.createFails = false →
      env.installPM = true → env.installFails = true →
      NewEv.rollbackWorktree ∈ (newWorktreeHandler env).1 ∧
        (newWorktreeHandler env).2 = ExitKind.exited 1) := by
  obtain ⟨evs0, st, heq, hevs0⟩ :=
    newHandler_eq_createPhase env hrev hname hvalid habort
  constructor
  · intro hsk hef hpath
    obtain ⟨mid, hcp, hmidrb, _, _, _⟩ :=
      createPhase_success env evs0 st hint hpath
    obtain ⟨tail, hep, htail⟩ :=
      editorPhase_shape env (evs0 ++ mid) st hint
    rw [heq, hcp, hep]
    refine ⟨?_, ?_, rfl⟩
    · have := editorPhase_warns env (evs0 ++ mid) st hint hsk hef
      rw [hep] at this
      exact this
    · intro hmem
      rcases List.mem_append.mp hmem with h | h
      · rcases List.mem_append.mp h with h | h
        · rcases hevs0 with h0 | h0 <;> rw [h0] at h <;> simp at h
        · exact hmidrb h
      · rcases htail _ h with h | h | h <;> cases h
  · intro hdir hcf hpm hif
    rw [heq, createPhase_install_failure env evs0 st hint hdir hcf hpm hif]
    simp

/-- Witness for the amended C5 at the concrete install-failure input. -/
theorem editor_warns_install_rolls_back_witness :
    (installRollbackEnv.editorSkip = false →
      installRollbackEnv.editorFails = true →
      (installRollbackEnv.dirExists = true ∨
        (installRollbackEnv.dirExists = false ∧
          installRollbackEnv.createFails = false ∧
          (installRollbackEnv.installPM = false ∨
            installRollbackEnv.installFails = false))) →
      NewEv.editorWarn ∈ (newWorktreeHandler installRollbackEnv).1 ∧
        NewEv.rollbackWorktree ∉ (newWorktreeHandler installRollbackEnv).1 ∧
        (newWorktreeHandler installRollbackEnv).2 = ExitKind.finished) ∧
    (installRollbackEnv.dirExists = false →
      installRollbackEnv.createFails = false →
      installRollbackEnv.installPM = true →
      installRollbackEnv.installFails = true →
      NewEv.rollbackWorktree ∈ (newWorktreeHandler installRollbackEnv).1 ∧
        (newWorktreeHandler installRollbackEnv).2 = ExitKind.exited 1) :=
  editor_warns_install_rolls_back installRollbackEnv (by decide) (by decide)
    (by decide) (by decide) rfl

/-- C9: when the resolved target path already denotes an existing worktree
(the directory exists and carries a `.git` marker), the create command
reuses it: no `git worktree add` is issued, reuse is reported, and the
invocation finishes normally; and a fresh creation (directory absent,
worktree add succeeding, install absent or succeeding) also finishes
normally — so running create twice with the same branch and path succeeds
both times, the second run reusing instead of duplicating. -/
theorem create_reuse_idempotent (env : NewEnv)
    (hrev : env.revParseOk = true)
    (hname : ¬(env.branchName = [] ∨ trimList env.branchName = []))
    (hvalid : (validateBranchName env.branchName).isValid = true)
    (habort : ¬(¬env.isBare ∧ ¬env.isClean ∧
      env.dirtyChoice = DirtyChoice.abort))
    (hint : env.interrupt = none) :
    (env.dirExists = true → env.hasDotGit = true →
      NewEv.reuseExisting ∈ (newWorktreeHandler env).1 ∧
        (∀ b, NewEv.gitWorktreeAdd b ∉ (newWorktreeHandler env).1) ∧
        (newWorktreeHandler env).2 = ExitKind.finished) ∧
    (env.dirExists = false → env.createFails = false →
      (env.installPM = false ∨ env.installFails = false) →
      NewEv.gitWorktreeAdd (!env.branchExists) ∈ (newWorktreeHandler env).1 ∧
        (newWorktreeHandler env).2 = ExitKind.finished) := by
  obtain ⟨evs0, st, heq, hevs0⟩ :=
    newHandler_eq_createPhase env hrev hname hvalid habort
  constructor
  · intro hdir hdg
    obtain ⟨mid, hcp, _, hmidadd, hmidreuse, _⟩ :=
      createPhase_success env evs0 st hint (Or.inl hdir)
    obtain ⟨tail, hep, htail⟩ :=
      editorPhase_shape env (evs0 ++ mid) st hint
    rw [heq, hcp, hep]
    refine ⟨?_, ?_, rfl⟩
    · exact List.mem_append.mpr (Or.inl
        (List.mem_append.mpr (Or.inr (hmidreuse hdir hdg))))
    · intro b hmem
      rcases List.mem_append.mp hmem with h | h
      · rcases List.mem_append.mp h with h | h
        · rcases hevs0 with h0 | h0 <;> rw [h0] at h <;> simp at h
        · rw [hmidadd b h] at hdir; cases hdir
      · rcases htail _ h with h | h | h <;> cases h
  · intro hdir hcf hio
    obtain ⟨mid, hcp, _, _, _, hmidform⟩ :=
      createPhase_success env evs0 st hint (Or.inr ⟨hdir, hcf, hio⟩)
    obtain ⟨tail, hep, htail⟩ :=
      editorPhase_shape env (evs0 ++ mid) st hint
    rw [heq, hcp, hep]
    exact ⟨List.mem_append.mpr (Or.inl (List.mem_append.mpr
      (Or.inr (hmidform hdir)))), rfl⟩

/-- Witness for C9 at the concrete reuse input. -/
theorem create_reuse_idempotent_witness :
    (reuseEnv.dirExists = true → reuseEnv.hasDotGit = true →
      NewEv.reuseExisting ∈ (newWorktreeHandler reuseEnv).1 ∧
        (∀ b, NewEv.gitWorktreeAdd b ∉ (newWorktreeHandler reuseEnv).1) ∧
        (newWorktreeHandler reuseEnv).2 = ExitKind.finished) ∧
    (reuseEnv.dirExists = false → reuseEnv.createFails = false →
      (reuseEnv.installPM = false ∨ reuseEnv.installFails = false) →
      NewEv.gitWorktreeAdd (!reuseEnv.branchExists) ∈
          (newWorktreeHandler reuseEnv).1 ∧
        (newWorktreeHandler reuseEnv).2 = ExitKind.finished) :=
  create_reuse_idempotent reuseEnv (by decide) (by decide) (by decide)
    (by decide) rfl

end WorktreeCli
